import Mathlib

/-!
Shallow embedding of the skyline-update plugin distribution system
(update-server/src/main.rs, update-server/src/hosted_plugins.rs,
skyline-update/src/lib.rs), with theorems settling the specification
claims about catalog construction, control-plane update resolution,
data-plane blob lookup, plugin-root scanning and the client update loop.
Bytes are modelled as Nat, byte blobs as List Nat; filesystem and network
outcomes are passed in explicitly as data.
-/

namespace SkylineUpdate

/-- Modelled from the spec: a semantic version (the external semver crate's
Version as used here), reduced to the major.minor.patch triple; pre-release
and build metadata are not exercised by any claim. -/
structure Version where
  major : Nat
  minor : Nat
  patch : Nat
deriving DecidableEq, Repr

/-- Modelled from the spec: the strict semver order on major.minor.patch. -/
def vlt (a b : Version) : Bool :=
  if a.major ≠ b.major then a.major < b.major
  else if a.minor ≠ b.minor then a.minor < b.minor
  else a.patch < b.patch

/-- Modelled from the spec: the non-strict semver order. -/
def vle (a b : Version) : Bool :=
  vlt a b || a = b

/-- Modelled from the spec: rendering a version back to its string form. -/
def versionToString (v : Version) : String :=
  toString v.major ++ "." ++ toString v.minor ++ "." ++ toString v.patch

/-- Modelled from the spec: parsing a decimal numeral, none on empty or
non-digit input. -/
def parseNatChars (l : List Char) : Option Nat :=
  if l = [] then none
  else if l.all Char.isDigit then
    some (l.foldl (fun n c => n * 10 + (c.toNat - 48)) 0)
  else none

/-- Splitting a character list on the dot separator. -/
def splitOnDot : List Char → List (List Char)
  | [] => [[]]
  | c :: rest =>
    match splitOnDot rest with
    | [] => [[]]
    | g :: gs => if c = '.' then [] :: g :: gs else (c :: g) :: gs

/-- Modelled from the spec: parsing a semantic version string of the form
major.minor.patch; any other shape fails. -/
def parseVersion (s : String) : Option Version :=
  match splitOnDot s.data with
  | [a, b, c] =>
    match parseNatChars a, parseNatChars b, parseNatChars c with
    | some x, some y, some z => some ⟨x, y, z⟩
    | _, _, _ => none
  | _ => none

/-- Modelled from the spec: the update_protocol crate's InstallLocation, a
tagged variant with today a single AbsolutePath constructor. -/
inductive InstallLocation where
  | AbsolutePath (path : String)
deriving DecidableEq, Repr

/-- Modelled from the spec: the update_protocol crate's wire file descriptor
sent in an Update reply. -/
structure UpdateFile where
  size : Nat
  download_index : Nat
  install_location : InstallLocation
deriving DecidableEq, Repr

/-- Modelled from the spec: the update_protocol crate's response codes. -/
inductive ResponseCode where
  | NoUpdate
  | Update
  | InvalidRequest
  | PluginNotFound
deriving DecidableEq, Repr

/-- Modelled from the spec: the update_protocol crate's UpdateResponse wire
message. -/
structure UpdateResponse where
  code : ResponseCode
  update_plugin : Bool
  update_skyline : Bool
  plugin_name : String
  new_plugin_version : String
  new_skyline_version : Option String
  required_files : List UpdateFile
deriving DecidableEq, Repr

/-- Modelled from the spec: the UpdateResponse.no_update constructor; its
response code is NoUpdate, all other fields empty. -/
def UpdateResponse.no_update : UpdateResponse :=
  { code := .NoUpdate, update_plugin := false, update_skyline := false,
    plugin_name := "", new_plugin_version := "", new_skyline_version := none,
    required_files := [] }

/-- Modelled from the spec: the UpdateResponse.invalid_request constructor;
its response code is InvalidRequest. -/
def UpdateResponse.invalid_request : UpdateResponse :=
  { code := .InvalidRequest, update_plugin := false, update_skyline := false,
    plugin_name := "", new_plugin_version := "", new_skyline_version := none,
    required_files := [] }

/-- Modelled from the spec: the UpdateResponse.plugin_not_found constructor;
its response code is PluginNotFound. -/
def UpdateResponse.plugin_not_found : UpdateResponse :=
  { code := .PluginNotFound, update_plugin := false, update_skyline := false,
    plugin_name := "", new_plugin_version := "", new_skyline_version := none,
    required_files := [] }

/-- Modelled from the spec: the update_protocol crate's PluginMetadata
summary sent in a metadata reply. -/
structure PluginMetadata where
  name : Option String
  description : Option String
  images_index : Nat
  image_count : Nat
  changelog_index : Nat
deriving DecidableEq, Repr

/-- Modelled from the spec: the update_protocol crate's Request variants; a
control-plane connection carries one of these, or undecodable text. -/
inductive Request where
  | Update (plugin_name : String) (plugin_version : String) (beta : Option Bool)
  | Metadata (plugin_name : String) (beta : Option Bool)
deriving DecidableEq, Repr

/-- hosted_plugins.rs Metadata: one plugin's loaded metadata blobs. -/
structure HostedMetadata where
  name : Option String
  images : Option (List (List Nat))
  description : Option String
  changelog : Option String
deriving DecidableEq, Repr

/-- hosted_plugins.rs Plugin: one successfully loaded plugin, files paired
with their contents. -/
structure HostedPlugin where
  name : String
  plugin_version : Version
  files : List (InstallLocation × List Nat)
  skyline_version : Version
  beta : Bool
  metadata : HostedMetadata
deriving DecidableEq, Repr

/-- One declared file of a plugin.toml, together with the outcome of the
fs::read in to_file (none models a read failure). -/
structure FileSpec where
  install_location : InstallLocation
  readResult : Option (List Nat)
deriving DecidableEq, Repr

/-- One walkdir item seen while packaging a folder bundle: the iterator may
yield an error, a sub-directory (skipped), or a file whose
tar append_path_with_name call succeeds or fails. -/
inductive WalkEntry where
  | walkError
  | dirEntry
  | fileEntry (appendOk : Bool)
deriving DecidableEq, Repr

/-- One folder bundle of a plugin.toml, with the outcomes of the
filesystem steps folder_to_plugin performs for it: File::create of the tar,
the walkdir traversal, tar finish, and the fs::read of the finished tar. -/
structure FolderSpec where
  install_root_location : InstallLocation
  createOk : Bool
  walk : List WalkEntry
  finishOk : Bool
  readBack : Option (List Nat)
deriving DecidableEq, Repr

/-- The metadata table of a plugin.toml with the outcomes of its reads:
each image read may fail (fs::read ... unwrap_or_default), the changelog
read may fail (read_to_string ... ok). -/
structure MetaSpec where
  name : Option String
  images : Option (List (Option (List Nat)))
  description : Option String
  changelog : Option (Option String)
deriving DecidableEq, Repr

/-- A successfully read and parsed plugin.toml descriptor. -/
structure TomlData where
  version : Version
  name : String
  beta : Option Bool
  files : List FileSpec
  folders : Option (List FolderSpec)
  skyline_version : Option Version
  metadata : Option MetaSpec
deriving DecidableEq, Repr

/-- One entry of the plugin root directory as seen by get: the DirEntry
itself may be an io error, the path may not be a directory, or it is a
directory whose plugin.toml read-and-parse either fails (none: missing,
malformed, or unparsable-version descriptor) or yields a descriptor. -/
inductive DirEntry where
  | ioError
  | notDir
  | dir (toml : Option TomlData)
deriving DecidableEq, Repr

/-- Result of a fallible step of folder_to_plugin: a Rust panic, an error
propagated with the question-mark operator, or a value. -/
inductive Fallible (α : Type) where
  | panic
  | err
  | ok (a : α)
deriving DecidableEq, Repr

/-- The bundle's install location with the archive-extension suffix
appended (install_loc.push_str of the tar extension). -/
def tarInstallLocation (loc : InstallLocation) : InstallLocation :=
  match loc with
  | .AbsolutePath p => .AbsolutePath (p ++ ".tar")

/-- The files.into_iter().map(to_file).collect step: every declared file is
read; the first read failure fails the whole load. -/
def readDeclaredFiles : List FileSpec → Option (List (InstallLocation × List Nat))
  | [] => some []
  | f :: rest =>
    match f.readResult with
    | none => none
    | some data =>
      match readDeclaredFiles rest with
      | none => none
      | some fs => some ((f.install_location, data) :: fs)

/-- The walkdir loop over one folder bundle: an iterator error propagates
as an error, directories are skipped, and a failed tar append panics
because its Result is unwrapped. -/
def walkFolder : List WalkEntry → Fallible Unit
  | [] => .ok ()
  | .walkError :: _ => .err
  | .dirEntry :: rest => walkFolder rest
  | .fileEntry true :: rest => walkFolder rest
  | .fileEntry false :: _ => .panic

/-- Packaging of one folder bundle into a synthetic tar file entry,
mirroring the body of the folders loop of folder_to_plugin. -/
def packOneFolder (fo : FolderSpec) : Fallible (InstallLocation × List Nat) :=
  if fo.createOk = false then .err
  else
    match walkFolder fo.walk with
    | .panic => .panic
    | .err => .err
    | .ok _ =>
      if fo.finishOk = false then .err
      else
        match fo.readBack with
        | none => .err
        | some data => .ok (tarInstallLocation fo.install_root_location, data)

/-- The folders loop of folder_to_plugin: bundles are packaged in order and
their tar entries collected; the first error or panic stops the load. -/
def packFolders : List FolderSpec → Fallible (List (InstallLocation × List Nat))
  | [] => .ok []
  | fo :: rest =>
    match packOneFolder fo with
    | .panic => .panic
    | .err => .err
    | .ok f =>
      match packFolders rest with
      | .panic => .panic
      | .err => .err
      | .ok fs => .ok (f :: fs)

/-- The metadata step of folder_to_plugin: image read failures degrade to
empty blobs, a changelog read failure degrades to no changelog, an absent
metadata table yields the all-empty default. -/
def buildMetadata : Option MetaSpec → HostedMetadata
  | none => { name := none, images := none, description := none, changelog := none }
  | some m =>
    { name := m.name,
      images := m.images.map (List.map (fun r => r.getD [])),
      description := m.description,
      changelog := m.changelog.bind id }

/-- hosted_plugins.rs folder_to_plugin: load one plugin-root entry. A
DirEntry io error, a failed descriptor read or parse, a failed declared
file read, or a packaging error yields err; a non-directory yields ok none;
a failed tar append panics; otherwise the plugin is built with declared
files first and packaged bundle archives appended after them. -/
def folder_to_plugin : DirEntry → Fallible (Option HostedPlugin)
  | .ioError => .err
  | .notDir => .ok none
  | .dir none => .err
  | .dir (some t) =>
    match readDeclaredFiles t.files with
    | none => .err
    | some declared =>
      match packFolders (t.folders.getD []) with
      | .panic => .panic
      | .err => .err
      | .ok tars =>
        .ok (some
          { name := t.name,
            plugin_version := t.version,
            files := declared ++ tars,
            skyline_version := t.skyline_version.getD ⟨0, 0, 0⟩,
            beta := t.beta.getD false,
            metadata := buildMetadata t.metadata })

/-- hosted_plugins.rs get: scan the plugin root, keeping the successfully
loaded plugins in directory order; entries whose load errs and
non-directory entries are dropped by the filter_map. A panic inside
folder_to_plugin aborts the whole scan, modelled as none. -/
def hostedGet : List DirEntry → Option (List HostedPlugin)
  | [] => some []
  | e :: rest =>
    match folder_to_plugin e with
    | .panic => none
    | .err => hostedGet rest
    | .ok none => hostedGet rest
    | .ok (some p) => (hostedGet rest).map (fun ps => p :: ps)

/-- main.rs PluginFile: one servable blob with its install location and its
assigned download index. -/
structure PluginFile where
  install : InstallLocation
  data : List Nat
  index : Nat
deriving DecidableEq, Repr

/-- main.rs Plugin: one catalog entry as served by the control plane. -/
structure Plugin where
  name : String
  plugin_version : Version
  files : List PluginFile
  metadata_files : List (List Nat)
  metadata : PluginMetadata
  skyline_version : Version
  beta : Bool
deriving DecidableEq, Repr

/-- The From impl turning a PluginFile into the wire UpdateFile: size is
the blob length, index and install location are copied. -/
def toUpdateFile (f : PluginFile) : UpdateFile :=
  { size := f.data.length, download_index := f.index, install_location := f.install }

/-- The inner files map of setup_plugin_ports: each file of one plugin
receives the next value of the running counter i. Returns the indexed
files and the counter after them. -/
def assignIndices (i : Nat) : List (InstallLocation × List Nat) → List PluginFile × Nat
  | [] => ([], i)
  | (install, data) :: rest =>
    let (fs, j) := assignIndices (i + 1) rest
    (⟨install, data, i⟩ :: fs, j)

/-- The changelog String::into_bytes conversion. -/
def stringBytes (s : String) : List Nat :=
  s.toUTF8.toList.map (fun b => b.toNat)

/-- The per-plugin body of setup_plugin_ports: index this plugin's files
starting at counter i, then form the PluginMetadata whose images_index is
the counter value after the files and whose changelog_index adds the image
count; the metadata blobs themselves are collected into metadata_files.
The counter is not advanced past the metadata blobs. -/
def setupOne (i : Nat) (hp : HostedPlugin) : Plugin × Nat :=
  let (files, j) := assignIndices i hp.files
  let image_count := (hp.metadata.images.map List.length).getD 0
  let metadata : PluginMetadata :=
    { name := hp.metadata.name,
      description := hp.metadata.description,
      images_index := j,
      image_count := image_count,
      changelog_index := j + image_count }
  let metadata_files :=
    hp.metadata.images.getD [] ++ (hp.metadata.changelog.map stringBytes).toList
  (⟨hp.name, hp.plugin_version, files, metadata_files, metadata,
    hp.skyline_version, hp.beta⟩, j)

/-- The plugins map of setup_plugin_ports: plugins are processed in
catalog order with one running counter threaded through. -/
def setupPlugins (i : Nat) : List HostedPlugin → List Plugin
  | [] => []
  | hp :: rest =>
    let (p, j) := setupOne i hp
    p :: setupPlugins j rest

/-- main.rs setup_plugin_ports, given the loaded plugins: build the catalog
entries, then collect the flat download table by concatenating each
plugin's files' blobs in catalog order. The metadata_files blobs are not
collected into the table. -/
def setup_plugin_ports (hps : List HostedPlugin) : List Plugin × List (List Nat) :=
  let plugins := setupPlugins 0 hps
  (plugins, plugins.flatMap (fun p => p.files.map (fun f => f.data)))

/-- Iterator::max_by_key on plugin versions as a fold with accumulator:
the running maximum is replaced whenever the next element is not strictly
below it, so the last maximal element wins ties. -/
def maxByVersion (acc : Option Plugin) : List Plugin → Option Plugin
  | [] => acc
  | p :: rest =>
    match acc with
    | none => maxByVersion (some p) rest
    | some q =>
      maxByVersion (if vlt p.plugin_version q.plugin_version then some q else some p) rest

/-- The candidate selection shared by both control-plane request arms:
filter on exact name and the beta-eligibility condition, then take the
maximum by version. -/
def selectPlugin (plugins : List Plugin) (n : String) (beta : Bool) : Option Plugin :=
  maxByVersion none (plugins.filter (fun p => p.name == n && (beta || !p.beta)))

/-- The Request::Update arm of the control-plane handler: resolve the
candidate, then compare versions; no candidate yields plugin_not_found, an
unparsable client version yields invalid_request, a candidate version not
above the client version yields no_update, and otherwise the Update
response carries the candidate's version string and its files translated
to wire descriptors. -/
def handleUpdateRequest (plugins : List Plugin) (plugin_name : String)
    (plugin_version : String) (beta : Option Bool) : UpdateResponse :=
  let b := beta.getD false
  match selectPlugin plugins plugin_name b with
  | some plugin =>
    match parseVersion plugin_version with
    | some current_version =>
      if vlt current_version plugin.plugin_version then
        { code := .Update,
          update_plugin := true,
          update_skyline := false,
          plugin_name := plugin_name,
          new_plugin_version := versionToString plugin.plugin_version,
          new_skyline_version := none,
          required_files := plugin.files.map toUpdateFile }
      else UpdateResponse.no_update
    | none => UpdateResponse.invalid_request
  | none => UpdateResponse.plugin_not_found

/-- A response written on a control-plane connection: either an
UpdateResponse or a PluginMetadata summary. -/
inductive Wire where
  | updateReply (r : UpdateResponse)
  | metaReply (m : PluginMetadata)
deriving DecidableEq, Repr

/-- The complete control-plane connection handler: the list of responses
written before the connection is closed. A decode failure (none) writes
invalid_request; an Update request writes its computed response; a
Metadata request writes the candidate's metadata when one is found and
writes nothing at all when none is. -/
def connectionResponses (plugins : List Plugin) : Option Request → List Wire
  | some (.Update n v b) => [.updateReply (handleUpdateRequest plugins n v b)]
  | some (.Metadata n b) =>
    match selectPlugin plugins n (b.getD false) with
    | some p => [.metaReply p.metadata]
    | none => []
  | none => [.updateReply UpdateResponse.invalid_request]

/-- u64::from_be_bytes of the 8 received bytes. -/
def u64_from_be_bytes (bytes : List Nat) : Nat :=
  bytes.foldl (fun acc b => acc * 256 + b % 256) 0

/-- The data-plane handler's payload for a decoded index: files.get(index)
streams the blob when the index is in bounds and sends nothing when it is
not. -/
def downloadBytes (files : List (List Nat)) (index : Nat) : List Nat :=
  match files.get? index with
  | some data => data
  | none => []

/-- Modelled from the spec: Rust Path::file_name for ordinary
forward-slash paths, the portion of the string after the last slash. -/
def fileNameChars (l : List Char) : List Char :=
  l.foldl (fun acc c => if c = '/' then [] else acc ++ [c]) []

/-- Splits a file name at its last dot into the part before and after;
none when the name has no dot. -/
def extSplit : List Char → Option (List Char × List Char)
  | [] => none
  | c :: rest =>
    match extSplit rest with
    | some (st, ex) => some (c :: st, ex)
    | none => if c = '.' then some ([], rest) else none

/-- Modelled from the spec: Rust Path::extension, the part of the file
name after its last dot, none when there is no dot or when everything
before the last dot is empty (hidden-file names). -/
def pathExtension (path : String) : Option String :=
  match extSplit (fileNameChars path.data) with
  | some (st, ex) => if st = [] then none else some (String.mk ex)
  | none => none

/-- Whether byte position i of the UTF-8 encoding of the given characters
is a char boundary; positions inside a multi-byte character and positions
past the end are not boundaries, and Rust string slicing panics there. -/
def isBoundary : List Char → Nat → Bool
  | _, 0 => true
  | [], _ + 1 => false
  | c :: rest, j + 1 =>
    if j + 1 < c.utf8Size then false else isBoundary rest (j + 1 - c.utf8Size)

/-- One offered file of an Update response, as used by the client loop. -/
structure OfferedFile where
  download_index : Nat
  install_location : InstallLocation
deriving DecidableEq, Repr

/-- The environment of one run of the client update loop: for the k-th
offered file, whether TcpStream::connect succeeds, what read_to_end
returns (none is a read error), whether flush and shutdown succeed; the
Installer capability's install_file on a path and blob; and whether
File::open of an installed archive succeeds. -/
structure ClientEnv where
  connect : Nat → Bool
  download : Nat → Option (List Nat)
  install : String → List Nat → Bool
  openFile : String → Bool
  flushOk : Nat → Bool
  shutdownOk : Nat → Bool

/-- The install path of an offered file as the client computes it from the
install location. -/
def pathOf (f : OfferedFile) : String :=
  match f.install_location with
  | .AbsolutePath p => p

/-- Result of one iteration of the client loop body for one file: fail is
a return false before anything was installed for this file, panicAfter is
a Rust panic after install_file already succeeded for this file, and ok
carries the installed path and blob. -/
inductive StepResult where
  | fail
  | panicAfter (path : String) (buf : List Nat)
  | ok (path : String) (buf : List Nat)
deriving DecidableEq, Repr

/-- One iteration of the update loop of lib.rs for the k-th offered file:
connect failure, a read_to_end error, or an install_file failure returns
false; after a successful install the path's extension is unwrapped (a
missing extension panics); for a tar path the extraction directory is the
path string sliced at chars-count-minus-4 used as a byte index (a
non-boundary index panics), then File::open of the archive is unwrapped
(failure panics); finally flush and shutdown are unwrapped. -/
def clientStep (env : ClientEnv) (k : Nat) (f : OfferedFile) : StepResult :=
  if env.connect k = false then .fail
  else
    match env.download k with
    | none => .fail
    | some buf =>
      let path := pathOf f
      if env.install path buf = false then .fail
      else
        match pathExtension path with
        | none => .panicAfter path buf
        | some ext =>
          if ext = "tar" then
            if isBoundary path.data (path.length - 4) = false then .panicAfter path buf
            else if env.openFile path = false then .panicAfter path buf
            else if env.flushOk k && env.shutdownOk k then .ok path buf
            else .panicAfter path buf
          else if env.flushOk k && env.shutdownOk k then .ok path buf
          else .panicAfter path buf

/-- Outcome of one run of the client update function: the boolean it
returns, or a panic. -/
inductive UpdateOutcome where
  | success
  | failed
  | panicked
deriving DecidableEq, Repr

/-- The update loop of lib.rs from the k-th file on: files are handled in
the server-given order; a step returning false stops with failed, a step
panic stops with panicked, and the function returns true only after the
last file. The second component lists the (path, blob) pairs install_file
was successfully applied to, in order. -/
def updateLoop (env : ClientEnv) (k : Nat) :
    List OfferedFile → UpdateOutcome × List (String × List Nat)
  | [] => (.success, [])
  | f :: rest =>
    match clientStep env k f with
    | .fail => (.failed, [])
    | .panicAfter p b => (.panicked, [(p, b)])
    | .ok p b =>
      let (o, inst) := updateLoop env (k + 1) rest
      (o, (p, b) :: inst)

/-- lib.rs update: run the loop over the response's required files. -/
def updateRun (env : ClientEnv) (files : List OfferedFile) :
    UpdateOutcome × List (String × List Nat) :=
  updateLoop env 0 files

/-- The installs a fully successful run performs from position k on:
each file's computed path paired with its downloaded blob. -/
def installedList (env : ClientEnv) (k : Nat) : List OfferedFile → List (String × List Nat)
  | [] => []
  | f :: rest => (pathOf f, (env.download k).getD []) :: installedList env (k + 1) rest

/-- A loaded plugin with one declared file and one metadata image, used in
concrete instantiations. -/
def demoHostedA : HostedPlugin :=
  { name := "A", plugin_version := ⟨1, 0, 0⟩,
    files := [(.AbsolutePath "/a", [1])],
    skyline_version := ⟨0, 0, 0⟩, beta := false,
    metadata := { name := some "A", images := some [[9]],
                  description := none, changelog := none } }

/-- A loaded plugin with one declared file and no metadata, used in
concrete instantiations. -/
def demoHostedB : HostedPlugin :=
  { name := "B", plugin_version := ⟨1, 0, 0⟩,
    files := [(.AbsolutePath "/b", [2])],
    skyline_version := ⟨0, 0, 0⟩, beta := false,
    metadata := { name := none, images := none,
                  description := none, changelog := none } }

/-- A non-beta catalog entry for the name Foo at version 1.0.0, used in
concrete instantiations. -/
def demoFoo : Plugin :=
  { name := "Foo", plugin_version := ⟨1, 0, 0⟩,
    files := [⟨.AbsolutePath "/f", [3, 4], 0⟩],
    metadata_files := [],
    metadata := { name := some "Foo", description := none,
                  images_index := 1, image_count := 0, changelog_index := 1 },
    skyline_version := ⟨0, 0, 0⟩, beta := false }

/-- A beta catalog entry for the name Foo at version 1.0.0, used in
concrete instantiations. -/
def demoFooBeta : Plugin :=
  { demoFoo with beta := true }

/-- A plugin-root entry whose folder bundle hits a tar append failure, so
its load panics, used in concrete instantiations. -/
def demoBadAppendDir : DirEntry :=
  .dir (some
    { version := ⟨1, 0, 0⟩, name := "Bad", beta := none,
      files := [],
      folders := some [{ install_root_location := .AbsolutePath "/r",
                         createOk := true,
                         walk := [.fileEntry false],
                         finishOk := true,
                         readBack := some [5] }],
      skyline_version := none, metadata := none })

/-- A plugin-root entry that loads successfully, used in concrete
instantiations. -/
def demoGoodDir : DirEntry :=
  .dir (some
    { version := ⟨2, 0, 0⟩, name := "Good", beta := none,
      files := [{ install_location := .AbsolutePath "/g", readResult := some [6] }],
      folders := none, skyline_version := none, metadata := none })

/-- A client environment in which every network, install and filesystem
step succeeds, used in concrete instantiations. -/
def permissiveEnv : ClientEnv :=
  { connect := fun _ => true, download := fun _ => some [7],
    install := fun _ _ => true, openFile := fun _ => true,
    flushOk := fun _ => true, shutdownOk := fun _ => true }

/-- The plugin demoGoodDir loads to, used in concrete instantiations. -/
def demoGoodPlugin : HostedPlugin :=
  { name := "Good", plugin_version := ⟨2, 0, 0⟩,
    files := [(.AbsolutePath "/g", [6])],
    skyline_version := ⟨0, 0, 0⟩, beta := false,
    metadata := { name := none, images := none,
                  description := none, changelog := none } }

/-- Whether the client loop body for the k-th file runs to completion and
continues to the next file. -/
def clientStepOk (env : ClientEnv) (k : Nat) (f : OfferedFile) : Bool :=
  match clientStep env k f with
  | .ok _ _ => true
  | _ => false

/-- Whether the client loop body for the k-th file returns false: a
connect failure, a read_to_end error, or an install_file failure. -/
def clientStepFails (env : ClientEnv) (k : Nat) (f : OfferedFile) : Bool :=
  match clientStep env k f with
  | .fail => true
  | _ => false

/-- The k-th offered file connects, downloads, and installs successfully. -/
def downloadsAndInstalls (env : ClientEnv) (k : Nat) (f : OfferedFile) : Prop :=
  env.connect k = true ∧
    ∃ buf, env.download k = some buf ∧ env.install (pathOf f) buf = true

/-- A client environment in which the download of every file after the
first fails, used in concrete instantiations. -/
def demoFailEnv : ClientEnv :=
  { permissiveEnv with download := fun k => if k = 0 then some [7] else none }

/-- Offered files with plain binary install paths, used in concrete
instantiations. -/
def demoOfferedA : OfferedFile := ⟨0, .AbsolutePath "/x.bin"⟩

/-- A second offered file, used in concrete instantiations. -/
def demoOfferedB : OfferedFile := ⟨1, .AbsolutePath "/y.bin"⟩

theorem vlt_iff (a b : Version) :
    vlt a b = true ↔
      a.major < b.major ∨
        (a.major = b.major ∧
          (a.minor < b.minor ∨ (a.minor = b.minor ∧ a.patch < b.patch))) := by
  unfold vlt
  split_ifs with h1 h2 <;> simp_all

theorem vle_iff (a b : Version) :
    vle a b = true ↔ vlt a b = true ∨ a = b := by
  unfold vle
  simp [Bool.or_eq_true]

theorem vle_refl (a : Version) : vle a a = true := by
  rw [vle_iff]; right; rfl

theorem vlt_total (a b : Version) (h : vlt a b = false) : vle b a = true := by
  rw [vle_iff, vlt_iff]
  rcases a with ⟨x1, y1, z1⟩
  rcases b with ⟨x2, y2, z2⟩
  rw [Bool.eq_false_iff, Ne, vlt_iff] at h
  simp only [Version.mk.injEq]
  dsimp only at *
  omega

theorem vle_of_vlt (a b : Version) (h : vlt a b = true) : vle a b = true := by
  rw [vle_iff]; exact Or.inl h

theorem vle_trans (a b c : Version) (h1 : vle a b = true) (h2 : vle b c = true) :
    vle a c = true := by
  rw [vle_iff, vlt_iff] at *
  rcases a with ⟨x1, y1, z1⟩
  rcases b with ⟨x2, y2, z2⟩
  rcases c with ⟨x3, y3, z3⟩
  simp only [Version.mk.injEq] at *
  omega

theorem vlt_false_of_vle (a b : Version) (h : vle a b = true) : vlt b a = false := by
  rw [vle_iff, vlt_iff] at h
  rcases a with ⟨x1, y1, z1⟩
  rcases b with ⟨x2, y2, z2⟩
  rw [Bool.eq_false_iff, Ne, vlt_iff]
  simp only [Version.mk.injEq] at h
  dsimp only at *
  omega

theorem maxByVersion_mem (l : List Plugin) : ∀ (acc : Option Plugin) (p : Plugin),
    maxByVersion acc l = some p → acc = some p ∨ p ∈ l := by
  induction l with
  | nil => intro acc p h; exact Or.inl h
  | cons q rest ih =>
    intro acc p h
    cases acc with
    | none =>
      simp only [maxByVersion] at h
      rcases ih (some q) p h with h1 | h1
      · injection h1 with h1
        exact Or.inr (h1 ▸ List.mem_cons_self q rest)
      · exact Or.inr (List.mem_cons_of_mem q h1)
    | some a =>
      simp only [maxByVersion] at h
      rcases ih _ p h with h1 | h1
      · split at h1
        · injection h1 with h1
          exact Or.inl (congrArg some h1)
        · injection h1 with h1
          exact Or.inr (h1 ▸ List.mem_cons_self q rest)
      · exact Or.inr (List.mem_cons_of_mem q h1)

theorem maxByVersion_ub (l : List Plugin) : ∀ (acc : Option Plugin) (p : Plugin),
    maxByVersion acc l = some p →
    (∀ a, acc = some a → vle a.plugin_version p.plugin_version = true) ∧
    ∀ q ∈ l, vle q.plugin_version p.plugin_version = true := by
  induction l with
  | nil =>
    intro acc p h
    have hacc : acc = some p := h
    constructor
    · intro a ha
      rw [hacc] at ha
      injection ha with ha
      rw [← ha]
      exact vle_refl _
    · intro q hq
      exact absurd hq (List.not_mem_nil q)
  | cons q rest ih =>
    intro acc p h
    cases acc with
    | none =>
      simp only [maxByVersion] at h
      have hq := (ih (some q) p h).1 q rfl
      constructor
      · intro a ha
        cases ha
      · intro r hr
        rcases List.mem_cons.mp hr with h1 | h1
        · rw [h1]; exact hq
        · exact (ih (some q) p h).2 r h1
    | some a =>
      simp only [maxByVersion] at h
      by_cases hv : vlt q.plugin_version a.plugin_version = true
      · rw [if_pos hv] at h
        have hap := (ih (some a) p h).1 a rfl
        have hqp := vle_trans _ _ _ (vle_of_vlt _ _ hv) hap
        refine ⟨fun x hx => ?_, fun r hr => ?_⟩
        · injection hx with hx; rw [← hx]; exact hap
        · rcases List.mem_cons.mp hr with h1 | h1
          · rw [h1]; exact hqp
          · exact (ih (some a) p h).2 r h1
      · rw [if_neg hv] at h
        have hqp := (ih (some q) p h).1 q rfl
        have hav := vlt_total _ _ (Bool.eq_false_iff.mpr hv)
        have hap := vle_trans _ _ _ hav hqp
        refine ⟨fun x hx => ?_, fun r hr => ?_⟩
        · injection hx with hx; rw [← hx]; exact hap
        · rcases List.mem_cons.mp hr with h1 | h1
          · rw [h1]; exact hqp
          · exact (ih (some q) p h).2 r h1

theorem selectPlugin_some (plugins : List Plugin) (n : String) (b : Bool) (p : Plugin)
    (h : selectPlugin plugins n b = some p) :
    p ∈ plugins ∧ p.name = n ∧ (b || !p.beta) = true ∧
    ∀ q ∈ plugins, q.name = n → (b || !q.beta) = true →
      vle q.plugin_version p.plugin_version = true := by
  unfold selectPlugin at h
  have hmem := maxByVersion_mem _ _ _ h
  rcases hmem with h1 | h1
  · cases h1
  have hfil := List.mem_filter.mp h1
  have hpred := hfil.2
  rw [Bool.and_eq_true] at hpred
  have hname : p.name = n := by
    have := hpred.1
    exact eq_of_beq this
  refine ⟨hfil.1, hname, hpred.2, fun q hq hqn hqb => ?_⟩
  have hqfil : q ∈ plugins.filter (fun r => r.name == n && (b || !r.beta)) := by
    refine List.mem_filter.mpr ⟨hq, ?_⟩
    rw [Bool.and_eq_true]
    exact ⟨beq_iff_eq.mpr hqn, hqb⟩
  exact (maxByVersion_ub _ _ _ h).2 q hqfil

theorem selectPlugin_none_of_beta_only (plugins : List Plugin) (n : String)
    (h : ∀ p ∈ plugins, p.name = n → p.beta = true) :
    selectPlugin plugins n false = none := by
  unfold selectPlugin
  have hfil : plugins.filter (fun p => p.name == n && (false || !p.beta)) = [] := by
    rw [List.filter_eq_nil_iff]
    intro p hp
    by_cases hn : p.name = n
    · have hb := h p hp hn
      simp [hb]
    · simp [beq_iff_eq, hn]
  rw [hfil]
  rfl

/-- C1: the control-plane handler's metadata-not-found path writes no
response at all before the connection closes: for a metadata request
naming a plugin absent from the catalog, the list of responses written on
the connection is empty, contradicting the required explicit not-found
reply and the one-response-per-connection discipline. -/
theorem c1_metadata_not_found_writes_no_reply :
    connectionResponses [] (some (.Metadata "Foo" none)) = [] :=
  rfl

/-- C2: download indices do not address metadata blobs. On a catalog of
two plugins where the first declares one file and one metadata image and
the second declares one file, the first plugin's images_index is 1, yet
position 1 of the flat blob table holds the second plugin's file blob, the
image blob is nowhere in the table, and a data-plane download of index 1
serves the second plugin's file. -/
theorem c2_images_index_addresses_next_plugins_file :
    ((setup_plugin_ports [demoHostedA, demoHostedB]).1.get? 0).map
      (fun p => p.metadata.images_index) = some 1
    ∧ (setup_plugin_ports [demoHostedA, demoHostedB]).2.get? 1 = some [2]
    ∧ [9] ∉ (setup_plugin_ports [demoHostedA, demoHostedB]).2
    ∧ downloadBytes (setup_plugin_ports [demoHostedA, demoHostedB]).2 1 = [2] := by
  decide

/-- C3 counterexample: a check-update request with an unparsable client
version naming a plugin absent from the catalog is answered with
PluginNotFound, not InvalidRequest, so the claim fails as stated. -/
theorem c3_unparsable_version_not_always_invalid_request :
    parseVersion "not-a-version" = none
    ∧ (handleUpdateRequest [] "Foo" "not-a-version" none).code = .PluginNotFound
    ∧ (handleUpdateRequest [] "Foo" "not-a-version" none).code ≠ .InvalidRequest := by
  decide

/-- C3 amended: for a check-update request with an unparsable client
version, the response code is InvalidRequest exactly when the (name,
beta-eligibility) selection finds a candidate plugin; when it finds none
the response code is PluginNotFound regardless of version parseability. -/
theorem c3_unparsable_version_invalid_request_when_plugin_found :
    ∀ (plugins : List Plugin) (n v : String) (beta : Option Bool),
    parseVersion v = none →
    ((∃ p, selectPlugin plugins n (beta.getD false) = some p) →
      (handleUpdateRequest plugins n v beta).code = .InvalidRequest)
    ∧ (selectPlugin plugins n (beta.getD false) = none →
      (handleUpdateRequest plugins n v beta).code = .PluginNotFound) := by
  intro plugins n v beta hparse
  constructor
  · intro hsel
    obtain ⟨p, hp⟩ := hsel
    simp only [handleUpdateRequest, hp, hparse]
    rfl
  · intro hnone
    simp only [handleUpdateRequest, hnone]
    rfl

/-- C3 witness: with the catalog holding the non-beta plugin Foo, the
unparsable version abc is answered InvalidRequest; with an empty catalog
the same request is answered PluginNotFound. -/
theorem c3_amended_witness :
    (handleUpdateRequest [demoFoo] "Foo" "abc" none).code = .InvalidRequest
    ∧ (handleUpdateRequest [] "Foo" "abc" none).code = .PluginNotFound :=
  ⟨(c3_unparsable_version_invalid_request_when_plugin_found [demoFoo] "Foo" "abc" none
      (by decide)).1 ⟨demoFoo, by decide⟩,
   (c3_unparsable_version_invalid_request_when_plugin_found [] "Foo" "abc" none
      (by decide)).2 (by decide)⟩

/-- C4: the candidate returned by the shared selection is drawn from the
catalog, bears the requested name, is never a beta entry when the request
is non-beta, and its version bounds every other entry passing the filter
from above; moreover a name hosted only as beta entries yields a
PluginNotFound check-update response whenever the request's beta flag
defaults or is set to false. -/
theorem c4_beta_filter_and_max_selection :
    ∀ (plugins : List Plugin) (n : String) (b : Bool),
    (∀ p, selectPlugin plugins n b = some p →
      p ∈ plugins ∧ p.name = n ∧ (b = false → p.beta = false) ∧
      ∀ q ∈ plugins, q.name = n → (b || !q.beta) = true →
        vle q.plugin_version p.plugin_version = true)
    ∧ ((∀ p ∈ plugins, p.name = n → p.beta = true) →
      ∀ (v : String) (beta : Option Bool), beta.getD false = false →
        (handleUpdateRequest plugins n v beta).code = .PluginNotFound) := by
  intro plugins n b
  constructor
  · intro p hp
    obtain ⟨hmem, hname, hbeta, hub⟩ := selectPlugin_some plugins n b p hp
    refine ⟨hmem, hname, ?_, hub⟩
    intro hb
    rw [hb] at hbeta
    simpa using hbeta
  · intro hall v beta hbeta
    simp only [handleUpdateRequest, hbeta,
      selectPlugin_none_of_beta_only plugins n hall]
    rfl

/-- C4 witness: the selection on a mixed catalog with a non-beta request
returns the non-beta Foo entry with the stated properties, and a catalog
hosting Foo only as a beta entry answers a non-beta check-update request
with PluginNotFound. -/
theorem c4_witness :
    demoFoo.name = "Foo"
    ∧ (handleUpdateRequest [demoFooBeta] "Foo" "0.9.0" none).code = .PluginNotFound :=
  ⟨((c4_beta_filter_and_max_selection [demoFoo, demoFooBeta] "Foo" false).1 demoFoo
      (by decide)).2.1,
   (c4_beta_filter_and_max_selection [demoFooBeta] "Foo" false).2 (by decide)
     "0.9.0" none (by decide)⟩

/-- C5: for a check-update request resolving to a candidate and carrying a
parsable client version, a candidate version at or below the client
version is answered with the no_update response, and a candidate version
above it is answered Update carrying the candidate's version string and
its files translated in order to wire descriptors whose size is the blob
length and whose index and install location are the file's. -/
theorem c5_version_comparison_and_update_payload :
    ∀ (plugins : List Plugin) (n v : String) (beta : Option Bool)
      (p : Plugin) (cv : Version),
    selectPlugin plugins n (beta.getD false) = some p →
    parseVersion v = some cv →
    (vle p.plugin_version cv = true →
      handleUpdateRequest plugins n v beta = UpdateResponse.no_update)
    ∧ (vlt cv p.plugin_version = true →
      (handleUpdateRequest plugins n v beta).code = .Update
      ∧ (handleUpdateRequest plugins n v beta).new_plugin_version =
          versionToString p.plugin_version
      ∧ (handleUpdateRequest plugins n v beta).required_files =
          p.files.map (fun f =>
            { size := f.data.length, download_index := f.index,
              install_location := f.install })) := by
  intro plugins n v beta p cv hsel hparse
  constructor
  · intro hle
    have hflt := vlt_false_of_vle _ _ hle
    simp only [handleUpdateRequest, hsel, hparse, hflt]
    rfl
  · intro hlt
    simp only [handleUpdateRequest, hsel, hparse, hlt]
    exact ⟨rfl, rfl, rfl⟩

/-- C5 witness: against the catalog holding Foo 1.0.0, the client version
1.0.0 is answered no_update and the client version 0.9.0 is answered
Update. -/
theorem c5_witness :
    handleUpdateRequest [demoFoo] "Foo" "1.0.0" none = UpdateResponse.no_update
    ∧ (handleUpdateRequest [demoFoo] "Foo" "0.9.0" none).code = .Update :=
  ⟨(c5_version_comparison_and_update_payload [demoFoo] "Foo" "1.0.0" none demoFoo
      ⟨1, 0, 0⟩ (by decide) (by decide)).1 (by decide),
   ((c5_version_comparison_and_update_payload [demoFoo] "Foo" "0.9.0" none demoFoo
      ⟨0, 9, 0⟩ (by decide) (by decide)).2 (by decide)).1⟩

/-- C6: for a data-plane connection carrying 8 index bytes, an index at or
beyond the bound of the flat blob table yields an empty payload, and an
in-bounds index yields exactly the blob at that index; the lookup is a
total function, so no out-of-bounds access occurs. -/
theorem c6_download_index_bounds :
    ∀ (files : List (List Nat)) (bytes : List Nat), bytes.length = 8 →
    (files.length ≤ u64_from_be_bytes bytes →
      downloadBytes files (u64_from_be_bytes bytes) = [])
    ∧ ∀ h : u64_from_be_bytes bytes < files.length,
      downloadBytes files (u64_from_be_bytes bytes) =
        files.get ⟨u64_from_be_bytes bytes, h⟩ := by
  intro files bytes _
  constructor
  · intro hge
    unfold downloadBytes
    rw [List.get?_eq_none.mpr hge]
  · intro h
    unfold downloadBytes
    rw [List.get?_eq_get h]

/-- C6 witness: on a two-blob table, the decoded big-endian index 5 yields
an empty payload and the decoded index 1 yields the second blob. -/
theorem c6_witness :
    downloadBytes [[1], [2]] (u64_from_be_bytes [0, 0, 0, 0, 0, 0, 0, 5]) = []
    ∧ downloadBytes [[1], [2]] (u64_from_be_bytes [0, 0, 0, 0, 0, 0, 0, 1]) = [2] :=
  ⟨(c6_download_index_bounds [[1], [2]] [0, 0, 0, 0, 0, 0, 0, 5] (by decide)).1
      (by decide),
   ((c6_download_index_bounds [[1], [2]] [0, 0, 0, 0, 0, 0, 0, 1] (by decide)).2
      (by decide)).trans (by decide)⟩

/-- C9: catalog construction is deterministic as a two-run property: two
runs of setup_plugin_ports on equal loaded plugin lists produce equal
entry lists and equal flat blob tables. -/
theorem c9_catalog_construction_deterministic :
    ∀ (hps1 hps2 : List HostedPlugin), hps1 = hps2 →
      setup_plugin_ports hps1 = setup_plugin_ports hps2 := by
  intro hps1 hps2 h
  rw [h]

/-- C9 witness: two runs on the same one-plugin list agree. -/
theorem c9_witness :
    setup_plugin_ports [demoHostedA] = setup_plugin_ports [demoHostedA] :=
  c9_catalog_construction_deterministic [demoHostedA] [demoHostedA] rfl

theorem updateLoop_cons_fail (env : ClientEnv) (k : Nat) (f : OfferedFile)
    (rest : List OfferedFile) (h : clientStep env k f = .fail) :
    updateLoop env k (f :: rest) = (.failed, []) := by
  simp only [updateLoop, h]

theorem updateLoop_cons_panic (env : ClientEnv) (k : Nat) (f : OfferedFile)
    (rest : List OfferedFile) (p : String) (b : List Nat)
    (h : clientStep env k f = .panicAfter p b) :
    updateLoop env k (f :: rest) = (.panicked, [(p, b)]) := by
  simp only [updateLoop, h]

theorem updateLoop_cons_ok (env : ClientEnv) (k : Nat) (f : OfferedFile)
    (rest : List OfferedFile) (p : String) (b : List Nat)
    (h : clientStep env k f = .ok p b) :
    updateLoop env k (f :: rest) =
      ((updateLoop env (k + 1) rest).1, (p, b) :: (updateLoop env (k + 1) rest).2) := by
  rcases hu : updateLoop env (k + 1) rest with ⟨o, inst⟩
  simp only [updateLoop, h, hu]

theorem clientStep_ok_inv (env : ClientEnv) (k : Nat) (f : OfferedFile)
    (p : String) (b : List Nat) (h : clientStep env k f = .ok p b) :
    env.connect k = true ∧ env.download k = some b ∧ p = pathOf f ∧
      env.install (pathOf f) b = true := by
  simp only [clientStep] at h
  split at h
  · exact absurd h (by simp)
  next hc =>
    split at h
    · exact absurd h (by simp)
    next buf hd =>
      split at h
      · exact absurd h (by simp)
      next hi =>
        have hcon : env.connect k = true := Bool.not_eq_false _ ▸ Bool.of_not_eq_false hc
        have hins : env.install (pathOf f) buf = true :=
          Bool.of_not_eq_false hi
        split at h
        · exact absurd h (by simp)
        · split at h
          · split at h
            · exact absurd h (by simp)
            · split at h
              · exact absurd h (by simp)
              · split at h
                · injection h with h1 h2
                  exact ⟨hcon, h2 ▸ hd, h1.symm, h2 ▸ hins⟩
                · exact absurd h (by simp)
          · split at h
            · injection h with h1 h2
              exact ⟨hcon, h2 ▸ hd, h1.symm, h2 ▸ hins⟩
            · exact absurd h (by simp)

theorem clientStepOk_exists (env : ClientEnv) (k : Nat) (f : OfferedFile)
    (h : clientStepOk env k f = true) :
    ∃ p b, clientStep env k f = .ok p b := by
  revert h
  unfold clientStepOk
  rcases clientStep env k f with _ | ⟨p, b⟩ | ⟨p, b⟩
  · intro h; exact absurd h (by simp)
  · intro h; exact absurd h (by simp)
  · intro _; exact ⟨p, b, rfl⟩

theorem clientStepFails_eq (env : ClientEnv) (k : Nat) (f : OfferedFile)
    (h : clientStepFails env k f = true) :
    clientStep env k f = .fail := by
  revert h
  unfold clientStepFails
  rcases clientStep env k f with _ | ⟨p, b⟩ | ⟨p, b⟩
  · intro _; rfl
  · intro h; exact absurd h (by simp)
  · intro h; exact absurd h (by simp)

theorem clientStepOk_downloads (env : ClientEnv) (k : Nat) (f : OfferedFile)
    (h : clientStepOk env k f = true) : downloadsAndInstalls env k f := by
  obtain ⟨p, b, hs⟩ := clientStepOk_exists env k f h
  obtain ⟨hc, hd, _, hi⟩ := clientStep_ok_inv env k f p b hs
  exact ⟨hc, b, hd, hi⟩

theorem updateLoop_success_inv :
    ∀ (files : List OfferedFile) (env : ClientEnv) (k : Nat),
    (updateLoop env k files).1 = .success →
    ∀ i (h : i < files.length), clientStepOk env (k + i) (files.get ⟨i, h⟩) = true := by
  intro files
  induction files with
  | nil =>
    intro env k _ i hi
    exact absurd hi (by simp)
  | cons f rest ih =>
    intro env k hsuc i hi
    rcases hstep : clientStep env k f with _ | ⟨p, b⟩ | ⟨p, b⟩
    · rw [updateLoop_cons_fail env k f rest hstep] at hsuc
      exact absurd hsuc (by simp)
    · rw [updateLoop_cons_panic env k f rest p b hstep] at hsuc
      exact absurd hsuc (by simp)
    · rw [updateLoop_cons_ok env k f rest p b hstep] at hsuc
      cases i with
      | zero =>
        simp only [Nat.add_zero, List.get]
        unfold clientStepOk
        rw [hstep]
      | succ j =>
        have hj : j < rest.length := Nat.lt_of_succ_lt_succ hi
        have := ih env (k + 1) hsuc j hj
        have hk : k + 1 + j = k + (j + 1) := by omega
        rw [hk] at this
        simpa using this

theorem updateLoop_fail_at :
    ∀ (files : List OfferedFile) (j : Nat) (env : ClientEnv) (k : Nat)
      (h : j < files.length),
    (∀ i (hi : i < j), clientStepOk env (k + i) (files.get ⟨i, Nat.lt_trans hi h⟩) = true) →
    clientStepFails env (k + j) (files.get ⟨j, h⟩) = true →
    updateLoop env k files = (.failed, installedList env k (files.take j)) := by
  intro files
  induction files with
  | nil =>
    intro j env k h
    exact absurd h (by simp)
  | cons f rest ih =>
    intro j env k h hpre hfail
    cases j with
    | zero =>
      have hf : clientStep env k f = .fail := by
        have := clientStepFails_eq env (k + 0) f (by simpa using hfail)
        simpa using this
      rw [updateLoop_cons_fail env k f rest hf]
      simp [installedList]
    | succ jj =>
      have h0 : clientStepOk env k f = true := by
        have := hpre 0 (Nat.succ_pos jj)
        simpa using this
      obtain ⟨p, b, hstep⟩ := clientStepOk_exists env k f h0
      obtain ⟨_, hdl, hp, _⟩ := clientStep_ok_inv env k f p b hstep
      have hjj : jj < rest.length := Nat.lt_of_succ_lt_succ h
      have hrest := ih jj env (k + 1) hjj ?pre ?fl
      case pre =>
        intro i hi
        have := hpre (i + 1) (Nat.succ_lt_succ hi)
        have hk : k + (i + 1) = k + 1 + i := by omega
        rw [hk] at this
        simpa using this
      case fl =>
        have hk : k + (jj + 1) = k + 1 + jj := by omega
        rw [hk] at hfail
        simpa using hfail
      rw [updateLoop_cons_ok env k f rest p b hstep, hrest]
      simp only [List.take, installedList, hp, hdl]
      rfl

/-- C7: one packaging-failure mode is not skipped: a plugin directory
whose folder bundle hits a tar append failure makes folder_to_plugin
panic, and the scan then aborts with no plugin list at all, even though
the remaining directory on its own loads successfully; the claim that
every load failure is skipped with the rest still processed fails for
this input. -/
theorem c7_append_failure_aborts_whole_scan :
    folder_to_plugin demoBadAppendDir = .panic
    ∧ folder_to_plugin demoGoodDir = .ok (some demoGoodPlugin)
    ∧ hostedGet [demoGoodDir] = some [demoGoodPlugin]
    ∧ hostedGet [demoBadAppendDir, demoGoodDir] = none := by
  decide

/-- C8: the client update loop handles the offered files in the
server-given order; a run returning true implies every offered file
connected, downloaded and installed successfully, and when the files
before position j all complete and the step at j fails by a connect,
download, or install failure, the run returns false having installed
exactly the files before j. -/
theorem c8_first_failure_stops_loop :
    ∀ (env : ClientEnv) (files : List OfferedFile),
    ((updateRun env files).1 = .success →
      ∀ k (h : k < files.length), downloadsAndInstalls env k (files.get ⟨k, h⟩))
    ∧ (∀ j (h : j < files.length),
      (∀ i (hi : i < j), clientStepOk env i (files.get ⟨i, Nat.lt_trans hi h⟩) = true) →
      clientStepFails env j (files.get ⟨j, h⟩) = true →
      updateRun env files = (.failed, installedList env 0 (files.take j))) := by
  intro env files
  constructor
  · intro hs k h
    have hs0 : (updateLoop env 0 files).1 = .success := hs
    have := updateLoop_success_inv files env 0 hs0 k h
    rw [Nat.zero_add] at this
    exact clientStepOk_downloads env k _ this
  · intro j h hpre hfail
    show updateLoop env 0 files = _
    apply updateLoop_fail_at files j env 0 h
    · intro i hi
      rw [Nat.zero_add]
      exact hpre i hi
    · rw [Nat.zero_add]
      exact hfail

/-- C8 witness: a fully successful single file downloads and installs,
and with the second download failing the two-file run returns failed with
exactly the first file installed. -/
theorem c8_witness :
    downloadsAndInstalls permissiveEnv 0 demoOfferedA
    ∧ updateRun demoFailEnv [demoOfferedA, demoOfferedB] =
        (.failed, [("/x.bin", [7])]) :=
  ⟨(c8_first_failure_stops_loop permissiveEnv [demoOfferedA]).1 (by decide) 0
      (by decide),
   ((c8_first_failure_stops_loop demoFailEnv [demoOfferedA, demoOfferedB]).2 1
      (by decide)
      (fun i hi => by
        have h0 : i = 0 := by omega
        subst h0
        show clientStepOk demoFailEnv 0 demoOfferedA = true
        decide)
      (by decide)).trans (by decide)⟩

/-- C10: the client's post-install archive step panics instead of
returning the Failed outcome on some offered files even when every
network and install step succeeds: a path without an extension trips the
extension unwrap, and a non-ASCII tar path makes chars-count-minus-4 a
non-boundary byte index for the slice; an ordinary ASCII tar-free run of
the same loop succeeds. -/
theorem c10_post_install_unwraps_panic :
    (updateRun permissiveEnv [⟨0, .AbsolutePath "/dir/noext"⟩]).1 = .panicked
    ∧ pathExtension "/dir/noext" = none
    ∧ (updateRun permissiveEnv [⟨1, .AbsolutePath "/dir/é.tar"⟩]).1 = .panicked
    ∧ pathExtension "/dir/é.tar" = some "tar"
    ∧ isBoundary "/dir/é.tar".data ("/dir/é.tar".length - 4) = false
    ∧ (updateRun permissiveEnv [⟨2, .AbsolutePath "/dir/ok.bin"⟩]).1 = .success := by
  decide

end SkylineUpdate
